import Mathlib

/-!
Shallow embedding of the panoramix signature-resolution fragment:
`panoramix/utils/signatures.py` and `panoramix/utils/supplement.py`.

Python machine values are modelled as follows: strings are `String`,
ints are `Int` (Python ints are unbounded, `//` and `%` on a positive
divisor are `Int.ediv` / `Int.emod`), floats arising from `/` are
modelled exactly as rationals `ℚ`, and code that can raise an exception
returns an `Option` (or `Except`), `none` standing for the raised
exception.
-/

namespace Panoramix

/-- One parameter of a signature: the dicts `{"type": ..., "name": ...}`
stored in the `params` column of the supplement database (see the
db-schema docstring at the top of `supplement.py`). -/
structure Param where
  type : String
  name : String
deriving DecidableEq, Repr

/-- One row of the `functions` table, in the dict form returned by
`fetch_sigs`: `{"hash", "name", "folded_name", "params", "cooccurs"}`.
`cooccurs` is the comma-split of the stored text column. -/
structure Sig where
  hash : String
  name : String
  folded_name : String
  params : List Param
  cooccurs : List String
deriving DecidableEq, Repr

/-- Python single quote, as used by `repr`/`str` of strings. -/
def pyQuote (s : String) : String := "\x27" ++ s ++ "\x27"

/-- Python `str` of one params dict: `{'type': 't', 'name': 'n'}`
(keys in insertion order, `type` first, per the db schema). -/
def pyStrParam (p : Param) : String :=
  "\x7b" ++ pyQuote "type" ++ ": " ++ pyQuote p.type ++ ", " ++
    pyQuote "name" ++ ": " ++ pyQuote p.name ++ "\x7d"

/-- Python `sep.join(elems)`. -/
def pyJoin (sep : String) : List String → String
  | [] => ""
  | [a] => a
  | a :: rest => a ++ sep ++ pyJoin sep rest

/-- Python `str` of a list given the renderings of its elements:
`[e1, e2, ...]`. -/
def pyStrList (elems : List String) : String :=
  "[" ++ pyJoin ", " elems ++ "]"

/-- Python `str` of a params list, as evaluated by
`str(func["params"])` in `match_score`. -/
def pyStrParams (ps : List Param) : String :=
  pyStrList (ps.map pyStrParam)

/-- Python `sub in s` on strings: substring containment. -/
def strContains (sub s : String) : Bool :=
  decide (sub.data <:+: s.data)

/-- The `score_c` term of `match_score` (signatures.py line 155):
`score_c = 0 if "param" in str(func["params"]) else 100`. -/
def score_c (params : List Param) : ℚ :=
  if strContains "param" (pyStrParams params) then 0 else 100

/-- Model of `match_score(func, hashes)` (signatures.py lines 136-157).
`none` models the `ZeroDivisionError` raised when `hashes` or
`func["cooccurs"]` is empty (Python's `/` on ints with zero divisor
raises). The two counting loops are `countP`s; the float divisions are
modelled exactly over `ℚ`. -/
def match_score (func : Sig) (hashes : List String) : Option ℚ :=
  if hashes.length = 0 then none
  else if func.cooccurs.length = 0 then none
  else
    let score_a : ℚ := 10 * (hashes.countP (fun h => func.cooccurs.contains h) : ℚ) / (hashes.length : ℚ)
    let score_b : ℚ := (func.cooccurs.countP (fun h => hashes.contains h) : ℚ) / (func.cooccurs.length : ℚ)
    some (score_a + score_b + score_c func.params)

/-- One value of the ABI dict built by `make_abi`, i.e. one `res` dict
plus the `target` attached at the end of the loop body.  The Python
dict may carry a `"fname"` key (placeholder and non-hex entries) or a
`"name"` key (adopted candidate); absent keys are `none`.  The target
is an opaque decompiler-internal reference, modelled by a type
parameter. -/
structure Entry (α : Type) where
  fname : Option String
  name : Option String
  folded_name : String
  params : Option (List Param)
  target : α
deriving DecidableEq, Repr

/-- The `res` dict of `make_abi`'s loop before `res["target"]` is set. -/
structure ResData where
  fname : Option String
  name : Option String
  folded_name : String
  params : Option (List Param)
deriving DecidableEq, Repr

/-- The initial placeholder `res` of `make_abi` (lines 187-190):
`{"fname": "unknown" + h[2:] + "()", "folded_name": "unknown" + h[2:] + "(?)"}`. -/
def placeholder_res (h : String) : ResData :=
  ⟨some ("unknown" ++ h.drop 2 ++ "()"), none, "unknown" ++ h.drop 2 ++ "(?)", none⟩

/-- The candidate-selection loop of `make_abi` (lines 202-211):
`best_score = 0` is never updated inside the loop, so the comparison
`score > best_score` is `score > 0` at every iteration and `res` is
overwritten by every candidate whose score is positive.  A `none`
from `match_score` models the exception aborting the whole loop. -/
def choose_res (hashes : List String) (sigs : List Sig) (res0 : ResData) :
    Option ResData :=
  sigs.foldlM
    (fun res f =>
      (match_score f hashes).map fun score =>
        if score > 0 then
          ⟨none, some f.name, f.folded_name, some f.params⟩
        else res)
    res0

/-- The per-selector body of `make_abi`'s loop (lines 185-211), before
the target is attached: non-hex selectors (no `"0x"` substring) resolve
to themselves; otherwise the Signature Store (`fetch`) is queried and,
if it has candidates, `choose_res` runs over them. -/
def abi_entry (fetch : String → List Sig) (hashes : List String) (h : String) :
    Option ResData :=
  if ¬ strContains "0x" h then
    some ⟨some h, none, h, none⟩
  else
    let sigs := fetch h
    if sigs.length > 0 then choose_res hashes sigs (placeholder_res h)
    else some (placeholder_res h)

/-- The generation loop of `make_abi` (lines 181-215) over the
insertion-ordered dict `hash_targets`, modelled as an association
list; an exception in any iteration (a `none`) aborts the whole
build. -/
def make_abi_entries {α : Type} (fetch : String → List Sig) (hashes : List String) :
    List (String × α) → Option (List (String × Entry α))
  | [] => some []
  | (h, target) :: rest =>
    match abi_entry fetch hashes h, make_abi_entries fetch hashes rest with
    | some res, some es =>
      some ((h, ⟨res.fname, res.name, res.folded_name, res.params, target⟩) :: es)
    | _, _ => none

/-- Model of `make_abi(hash_targets)` on a cache miss (lines 160-224), as the pure
function from the observed selector→target dict and the Signature Store
contents to the generated ABI dict.  `hashes = list(hash_targets.keys())`. -/
def make_abi {α : Type} (fetch : String → List Sig) (hash_targets : List (String × α)) :
    Option (List (String × Entry α)) :=
  make_abi_entries fetch (hash_targets.map Prod.fst) hash_targets

/-- Model of `str(sorted(list(hash_targets.keys())))` (line 163), the string
whose sha256 hex digest is the ABI cache key.  Python `sorted` on
strings is lexicographic; Python `str` of a list of strings renders
each element in single quotes. -/
def cache_key_input {α : Type} (hash_targets : List (String × α)) : String :=
  pyStrList (((hash_targets.map Prod.fst).mergeSort
    (fun a b => decide (a ≤ b))).map pyQuote)

/-- The cache key `hashlib.sha256(...).hexdigest()` (line 164).  The
sha256 hex digest is an external library function, abstracted as an
arbitrary function of the serialized sorted selector list. -/
def cache_key {α : Type} (sha256_hexdigest : String → String)
    (hash_targets : List (String × α)) : String :=
  sha256_hexdigest (cache_key_input hash_targets)

/-!  The Parameter Name Resolver: `get_param_name` (signatures.py
lines 50-94).  The decompiler's symbolic expressions are nested Python
tuples; the shapes this fragment matches on are embedded as an
inductive type with an opaque fallback constructor for every other
shape. -/

/-- Symbolic decompiler expressions, as matched by `get_param_name`:
`("cd", loc)`, `("add", a, b)`, `("mul", a, b)`, `("param", name)`,
integers, and an opaque constructor for every other shape. -/
inductive Expr where
  | num (n : Int)
  | cd (loc : Expr)
  | add (a b : Expr)
  | mul (a b : Expr)
  | param (name : String)
  | other (tag : String)
deriving DecidableEq, Repr

/-- Python `str` of an expression tuple, as used by the resolver when
it stringifies a recursive result (`str(get_param_name(...))`). -/
def reprExpr : Expr → String
  | .num n => toString n
  | .cd l => "(" ++ pyQuote "cd" ++ ", " ++ reprExpr l ++ ")"
  | .add a b => "(" ++ pyQuote "add" ++ ", " ++ reprExpr a ++ ", " ++ reprExpr b ++ ")"
  | .mul a b => "(" ++ pyQuote "mul" ++ ", " ++ reprExpr a ++ ", " ++ reprExpr b ++ ")"
  | .param s => "(" ++ pyQuote "param" ++ ", " ++ pyQuote s ++ ")"
  | .other t => t

/-- Modelled from the spec: `cleanup_mul_1` lives in
`panoramix.utils.helpers`, which is not part of this fragment; §4.5
describes it as "a normalization pass collapses redundant
multiply-by-one sub-expressions in the offset".  It collapses
`("mul", 1, x)` to `x` recursively and keeps every other shape. -/
def cleanup_mul_1 : Expr → Expr
  | .cd l => .cd (cleanup_mul_1 l)
  | .add a b => .add (cleanup_mul_1 a) (cleanup_mul_1 b)
  | .mul (.num 1) b => cleanup_mul_1 b
  | .mul a b => .mul (cleanup_mul_1 a) (cleanup_mul_1 b)
  | e => e

/-- Modelled from the spec: `COLOR_GREEN`/`ENDC`/`colorize` live in
`panoramix.utils.helpers`, outside this fragment; §4.5 only says names
are "optionally color-highlighted".  With `add_color = false` the text
is returned unchanged; with `true` it is wrapped in the color marks. -/
def COLOR_GREEN : String := "\x1b[92m"

/-- Modelled from the spec: the color-reset mark (see `COLOR_GREEN`). -/
def ENDC : String := "\x1b[0m"

/-- Modelled from the spec: `colorize(text, color, add_color)` (see
`COLOR_GREEN`). -/
def colorize (text color : String) (add_color : Bool) : String :=
  if add_color then color ++ text ++ ENDC else text

/-- Python `l[i]` on a list: negative indices count from the end,
out-of-range raises `IndexError` (modelled as `none`). -/
def pyIndex {α : Type} (l : List α) (i : Int) : Option α :=
  let j := if i < 0 then (l.length : Int) + i else i
  if j < 0 then none else l.get? j.toNat

/-- The run-local resolver context: `_storage.abi` and `_storage.func`
of the thread-local `_storage` (an unset or `None` attribute is
`none`). -/
structure Ctx (α : Type) where
  abi : Option (List (String × Entry α))
  func : Option (Entry α)

/-- What `get_param_name` returns when it does not raise: either an
expression (the unresolved input, possibly after `cleanup_mul_1`) or a
parameter-name string. -/
inductive PName where
  | expr (e : Expr)
  | str (s : String)
deriving DecidableEq, Repr

/-- Python `str` of a `get_param_name` result: identity on strings,
tuple repr on expressions. -/
def pyStrPName : PName → String
  | .expr e => reprExpr e
  | .str s => s

/-- The body of `get_param_name` from line 63 on, once the context
checks have passed and `ps = _storage.func["params"]` is fixed: the
shape match over the extracted `loc`, in source priority order.  The
recursive calls in the source are `get_param_name(("cd", m.point_loc),
func=func)`: they re-enter through the same (passing) context checks
with the same `ps` and no `add_color`, which is exactly a direct
recursion here. -/
def get_param_name_loc (ps : List Param) (loc : Expr)
    (add_color : Bool) : Option PName :=
  match loc with
  | .num n =>
    if (n - 4) % 32 ≠ 0 then some (.expr (.cd (.num n)))
    else
      let num := (n - 4) / 32
      if num ≥ (ps.length : Int) then some (.expr (.cd (.num n)))
      else (pyIndex ps num).map fun p =>
        .str (colorize p.name COLOR_GREEN add_color)
  | .add (.num 4) (.param point_loc) =>
    some (.str (colorize (point_loc ++ ".length") COLOR_GREEN add_color))
  | .add (.num 4) (.cd point_loc) =>
    (get_param_name_loc ps point_loc false).map fun r =>
      .str (colorize (pyStrPName r ++ ".length") COLOR_GREEN add_color)
  | .add (.num offset) (.cd point_loc) =>
    (get_param_name_loc ps point_loc false).map fun r =>
      .str (colorize
        (pyStrPName r ++ "[" ++ toString ((offset - 36) / 32) ++ "]")
        COLOR_GREEN add_color)
  | _ => some (.expr (cleanup_mul_1 (.cd loc)))

/-- Model of `get_param_name(cd, add_color, func)` (signatures.py lines 50-94).
`none` models a raised exception: the `AttributeError` when the
argument is not a `("cd", loc)` tuple (the unchecked
`match(cd, ("cd", ":loc")).loc`), or the `IndexError` of a negative
parameter index below `-len(params)`.  The `func` keyword argument is
only ever forwarded, never read (outside the dead assert), and is
dropped here; the dead `assert num < len(params)` after the
`num >= len` early return is omitted (it can never fire). -/
def get_param_name {α : Type} (ctx : Ctx α) (cd : Expr)
    (add_color : Bool := false) : Option PName :=
  match cd with
  | .cd loc =>
    match ctx.abi, ctx.func with
    | none, _ => some (.expr (.cd loc))
    | some _, none => some (.expr (.cd loc))
    | some _, some func =>
      match func.params with
      | none => some (.expr (.cd loc))
      | some ps => get_param_name_loc ps loc add_color
  | _ => none

/-!  The Signature Store backing file: `supplement.py`.  Only the
contents-relevant state of the three involved paths is modelled: each
slot is `none` (file absent) or `some b`, where `b` records whether
the sqlite integrity probe `SELECT COUNT(1) FROM functions` succeeds
on the file (for the compressed original: on the database it
decompresses to).  sqlite and lzma themselves are external
collaborators. -/

/-- File-system state of the supplement database files:
`cache_dir() / "supplement.db"`, `data/supplement.db` (the
decompressed intermediate) and `data/supplement.db.xz` (the
compressed original). -/
structure FileState where
  cache_db : Option Bool
  data_db : Option Bool
  data_xz : Option Bool
deriving DecidableEq, Repr

/-- The two paths `supplements_path()` can denote. -/
inductive SuppPath where
  | cacheDb
  | dataDb
deriving DecidableEq, Repr

/-- Model of `supplements_path()` (supplement.py lines 43-47).  The condition
`decompressed_supplements_path().is_file` is missing the call
parentheses: `is_file` without `()` is a bound-method object, which is
always truthy in Python, so the working copy is always the
decompressed path `data/supplement.db` and the `cache_dir()` branch is
dead. -/
def supplements_path (_fs : FileState) : SuppPath := .dataDb

/-- Reading a path slot of the file state. -/
def read_path (fs : FileState) : SuppPath → Option Bool
  | .cacheDb => fs.cache_db
  | .dataDb => fs.data_db

/-- Writing a path slot of the file state. -/
def write_path (fs : FileState) (p : SuppPath) (v : Option Bool) : FileState :=
  match p with
  | .cacheDb => { fs with cache_db := v }
  | .dataDb => { fs with data_db := v }

/-- Which artifact a rematerialization in `check_supplements` read
from: the `shutil.copy` of the decompressed intermediate (line 92) or
the lzma decompression of the compressed original (lines 96-98). -/
inductive Source where
  | copy_decompressed
  | decompress_xz
deriving DecidableEq, Repr

/-- Model of `check_supplements()` (supplement.py lines 76-100): probe the
working copy if it exists and delete it when the probe raises
(lines 80-86); if it does not exist, copy the decompressed
intermediate when that is a file, else decompress the compressed
original (lines 88-98); finally `assert` the working copy exists.
Returns the new file state and the rematerialization source used, if
any.  `.error` models the exception from `lzma.open` when the
compressed original is missing (the final `assert` cannot otherwise
fail). -/
def check_supplements (fs : FileState) : Except Unit (FileState × Option Source) :=
  let p := supplements_path fs
  let fs1 := if read_path fs p = some false then write_path fs p none else fs
  if (read_path fs1 p).isSome then .ok (fs1, none)
  else if fs1.data_db.isSome then
    .ok (write_path fs1 p fs1.data_db, some .copy_decompressed)
  else
    match fs1.data_xz with
    | some v => .ok (write_path fs1 p (some v), some .decompress_xz)
    | none => .error ()

/-- One raw row of the `functions` table for one selector, as
`fetch_sigs` reads it: the `params` column already json-decoded (the
JSON decoder is external), the `cooccurs` column as its raw
comma-joined text. -/
structure Row where
  hash : String
  name : String
  folded_name : String
  params : List Param
  cooccurs_text : String
deriving DecidableEq, Repr

/-- The dict `fetch_sigs` builds from a row (supplement.py lines
116-125): `cooccurs` is `row[4].split(",")`. -/
def sig_of_row (r : Row) : Sig :=
  ⟨r.hash, r.name, r.folded_name, r.params, r.cooccurs_text.splitOn ","⟩

/-- Model of `fetch_sigs(hash)` (supplement.py lines 103-127) before
memoization: `_cursor()` runs `check_supplements()` and opens the
working copy, then the rows for the selector are fetched and
converted.  The sqlite query itself is external and abstracted as the
function `db` from a selector to its rows. -/
def fetch_sigs (db : String → List Row) (fs : FileState) (h : String) :
    Except Unit (FileState × List Sig) := do
  let (fs2, _) ← check_supplements fs
  .ok (fs2, (db h).map sig_of_row)

/-!  Concrete fixtures used by the claim theorems. -/

/-- A store candidate for selector `0xaaaaaaaa` whose co-occurrence
set is exactly the observed set, scoring `10 + 1 + 100 = 111`. -/
def c1_sigA : Sig :=
  ⟨"0xaaaaaaaa", "goodname", "goodname(uint256)", [⟨"uint256", "_a"⟩], ["0xaaaaaaaa"]⟩

/-- A second store candidate for the same selector whose co-occurrence
set is disjoint from the observed set, scoring `0 + 0 + 100 = 100`. -/
def c1_sigB : Sig :=
  ⟨"0xaaaaaaaa", "badname", "badname(uint256)", [⟨"uint256", "_b"⟩], ["0xbbbbbbbb"]⟩

/-- A Signature Store returning the two candidates above, in
store-lookup order `[c1_sigA, c1_sigB]`. -/
def c1_fetch : String → List Sig :=
  fun h => if h = "0xaaaaaaaa" then [c1_sigA, c1_sigB] else []

/-- The permutation relation on optional entry lists: both builds
raised, or neither did and the association lists are permutations of
each other (i.e. equal as selector→entry maps, keys being unique). -/
def OListPerm {β : Type} : Option (List β) → Option (List β) → Prop
  | none, none => True
  | some l₁, some l₂ => l₁.Perm l₂
  | _, _ => False

/-! Theorems about the claims. -/

/-- Claim C10: For every calldata-read expression, if no ABI is active in
the current run's context, or no current function has been bound, or
the bound function's entry has no parameter list, `get_param_name`
returns the input expression unchanged instead of raising an error. -/
theorem C10_missing_context_returns_input {α : Type} (ctx : Ctx α) (loc : Expr) (ac : Bool)
    (h : ctx.abi = none ∨ ctx.func = none ∨ ∃ f, ctx.func = some f ∧ f.params = none) :
    get_param_name ctx (.cd loc) ac = some (.expr (.cd loc)) := by
  obtain ⟨a, f⟩ := ctx
  rcases h with h | h | ⟨f', hf, hp⟩
  · simp only at h
    subst h
    rfl
  · simp only at h
    subst h
    cases a <;> rfl
  · simp only at hf
    subst hf
    cases a <;> simp [get_param_name, hp]

/-- Closed instance of `C10_missing_context_returns_input`: with no
active ABI the direct read at offset 4 comes back unchanged. -/
theorem C10_witness :
    get_param_name (⟨none, none⟩ : Ctx Unit) (.cd (.num 4)) false =
      some (.expr (.cd (.num 4))) :=
  C10_missing_context_returns_input _ _ _ (Or.inl rfl)

/-- Claim C2: For every direct indexed calldata read with a compile-time
integer offset satisfying `(offset - 4) mod 32 = 0`, if the computed
index `(offset - 4) / 32` is at least the length of the current
function's parameter list, `get_param_name` returns the expression
unchanged rather than raising an assertion failure or aborting (the
`num >= len` early return fires before the assert can). -/
theorem C2_out_of_range_index_returns_input {α : Type} (ctx : Ctx α)
    (abi : List (String × Entry α)) (func : Entry α) (ps : List Param) (off : Int) (ac : Bool)
    (habi : ctx.abi = some abi) (hfunc : ctx.func = some func) (hps : func.params = some ps)
    (hal : (off - 4) % 32 = 0) (hrange : (ps.length : Int) ≤ (off - 4) / 32) :
    get_param_name ctx (.cd (.num off)) ac = some (.expr (.cd (.num off))) := by
  obtain ⟨a, f⟩ := ctx
  simp only at habi hfunc
  subst habi hfunc
  simp [get_param_name, get_param_name_loc, hps, hal, hrange]

/-- Closed instance of `C2_out_of_range_index_returns_input`: offset
68 (index 2) against a single-parameter function resolves to the
unchanged input expression. -/
theorem C2_witness :
    get_param_name
        (⟨some [], some ⟨none, some "f", "f(uint256)", some [⟨"uint256", "_a"⟩], ()⟩⟩ : Ctx Unit)
        (.cd (.num 68)) false =
      some (.expr (.cd (.num 68))) :=
  C2_out_of_range_index_returns_input _ [] _ [⟨"uint256", "_a"⟩] 68 false
    rfl rfl rfl (by decide) (by decide)

/-- Claim C6: For every direct indexed calldata read with a compile-time
integer offset, `get_param_name` returns the expression unchanged when
`(offset - 4) mod 32 ≠ 0`, and otherwise returns the name of the
parameter at index `(offset - 4) / 32` of the current function's
parameter list when that index is in range. -/
theorem C6_direct_read_resolution {α : Type} (ctx : Ctx α)
    (abi : List (String × Entry α)) (func : Entry α) (ps : List Param) (off : Int) (ac : Bool)
    (habi : ctx.abi = some abi) (hfunc : ctx.func = some func) (hps : func.params = some ps) :
    ((off - 4) % 32 ≠ 0 →
      get_param_name ctx (.cd (.num off)) ac = some (.expr (.cd (.num off)))) ∧
    (∀ (i : ℕ) (p : Param), (off - 4) % 32 = 0 → (off - 4) / 32 = (i : Int) →
      ps.get? i = some p →
      get_param_name ctx (.cd (.num off)) ac =
        some (.str (colorize p.name COLOR_GREEN ac))) := by
  obtain ⟨a, f⟩ := ctx
  simp only at habi hfunc
  subst habi hfunc
  constructor
  · intro hal
    simp [get_param_name, get_param_name_loc, hps, hal]
  · intro i p hal hidx hget
    have hlt : i < ps.length := (List.get?_eq_some.mp hget).1
    simp only [get_param_name, get_param_name_loc, hps, hal, hidx]
    rw [if_neg (by simp), if_neg (by exact_mod_cast not_le.mpr hlt)]
    have hnn : ¬((i : Int) < 0) := not_lt.mpr (Int.natCast_nonneg i)
    simp only [pyIndex, Option.map_eq_some']
    refine ⟨p, ?_, rfl⟩
    rw [if_neg (by rw [if_neg hnn]; exact hnn), if_neg hnn, Int.toNat_natCast]
    simpa using hget

/-- Closed instance of `C6_direct_read_resolution`: offset 37 is
unaligned and comes back unchanged; offset 36 against parameters
`["_from", "_to"]` resolves to `"_to"`. -/
theorem C6_witness :
    get_param_name
        (⟨some [], some ⟨none, some "transfer", "transfer(address,uint256)",
          some [⟨"address", "_from"⟩, ⟨"address", "_to"⟩], ()⟩⟩ : Ctx Unit)
        (.cd (.num 37)) false = some (.expr (.cd (.num 37))) ∧
    get_param_name
        (⟨some [], some ⟨none, some "transfer", "transfer(address,uint256)",
          some [⟨"address", "_from"⟩, ⟨"address", "_to"⟩], ()⟩⟩ : Ctx Unit)
        (.cd (.num 36)) false = some (.str "_to") := by
  constructor
  · exact (C6_direct_read_resolution
      (⟨some [], some ⟨none, some "transfer", "transfer(address,uint256)",
        some [⟨"address", "_from"⟩, ⟨"address", "_to"⟩], ()⟩⟩ : Ctx Unit)
      [] _ [⟨"address", "_from"⟩, ⟨"address", "_to"⟩] 37 false rfl rfl rfl).1 (by decide)
  · have h := (C6_direct_read_resolution
      (⟨some [], some ⟨none, some "transfer", "transfer(address,uint256)",
        some [⟨"address", "_from"⟩, ⟨"address", "_to"⟩], ()⟩⟩ : Ctx Unit)
      [] _ [⟨"address", "_from"⟩, ⟨"address", "_to"⟩] 36 false rfl rfl rfl).2
      1 ⟨"address", "_to"⟩ (by decide) (by decide) rfl
    simpa [colorize] using h

/-- Claim C7: For every calldata-read expression with a non-integer
offset (under an active context), the resolver matches shapes in
priority order: `(add, 4, (param, p))` resolves to `p ++ ".length"`;
`(add, 4, (cd, inner))` resolves `inner` recursively and appends
`".length"`; `(add, k, (cd, inner))` with constant integer `k ≠ 4`
resolves `inner` recursively and appends `"[(k-36)/32]"`. -/
theorem C7_nonint_offset_patterns {α : Type} (ctx : Ctx α)
    (abi : List (String × Entry α)) (func : Entry α) (ps : List Param) (ac : Bool)
    (habi : ctx.abi = some abi) (hfunc : ctx.func = some func) (hps : func.params = some ps) :
    (∀ p : String,
      get_param_name ctx (.cd (.add (.num 4) (.param p))) ac =
        some (.str (colorize (p ++ ".length") COLOR_GREEN ac))) ∧
    (∀ inner : Expr,
      get_param_name ctx (.cd (.add (.num 4) (.cd inner))) ac =
        (get_param_name ctx (.cd inner) false).map fun r =>
          .str (colorize (pyStrPName r ++ ".length") COLOR_GREEN ac)) ∧
    (∀ (k : Int) (inner : Expr), k ≠ 4 →
      get_param_name ctx (.cd (.add (.num k) (.cd inner))) ac =
        (get_param_name ctx (.cd inner) false).map fun r =>
          .str (colorize
            (pyStrPName r ++ "[" ++ toString ((k - 36) / 32) ++ "]")
            COLOR_GREEN ac)) := by
  obtain ⟨a, f⟩ := ctx
  simp only at habi hfunc
  subst habi hfunc
  have hctx : ∀ (e : Expr) (ac' : Bool),
      get_param_name (⟨some abi, some func⟩ : Ctx α) (.cd e) ac' =
        get_param_name_loc ps e ac' := by
    intro e ac'
    simp [get_param_name, hps]
  refine ⟨fun p => ?_, fun inner => ?_, fun k inner hk => ?_⟩
  · rw [hctx]
    rfl
  · rw [hctx, hctx]
    rw [get_param_name_loc]
  · rw [hctx, hctx]
    rw [get_param_name_loc]
    exact hk

/-- Closed instance of `C7_nonint_offset_patterns`: under a function
whose parameter 0 is named `arr`, `(add, 4, (param, "_data"))` gives
`"_data.length"`, `(add, 4, (cd, 4))` gives `"arr.length"`, and
`(add, 68, (cd, 4))` gives `"arr[1]"`. -/
theorem C7_witness :
    get_param_name
        (⟨some [], some ⟨none, some "foo", "foo(bytes)", some [⟨"bytes", "arr"⟩], ()⟩⟩ : Ctx Unit)
        (.cd (.add (.num 4) (.param "_data"))) false = some (.str "_data.length") ∧
    get_param_name
        (⟨some [], some ⟨none, some "foo", "foo(bytes)", some [⟨"bytes", "arr"⟩], ()⟩⟩ : Ctx Unit)
        (.cd (.add (.num 4) (.cd (.num 4)))) false = some (.str "arr.length") ∧
    get_param_name
        (⟨some [], some ⟨none, some "foo", "foo(bytes)", some [⟨"bytes", "arr"⟩], ()⟩⟩ : Ctx Unit)
        (.cd (.add (.num 68) (.cd (.num 4)))) false = some (.str "arr[1]") := by
  have h := C7_nonint_offset_patterns
    (⟨some [], some ⟨none, some "foo", "foo(bytes)", some [⟨"bytes", "arr"⟩], ()⟩⟩ : Ctx Unit)
    [] _ [⟨"bytes", "arr"⟩] false rfl rfl rfl
  refine ⟨?_, ?_, ?_⟩
  · rw [h.1 "_data"]
    rfl
  · rw [h.2.1 (.num 4)]
    decide
  · rw [h.2.2 68 (.num 4) (by decide)]
    decide

/-- Counting members of `l₁` that `l₂` contains is the cardinality of
the intersection of the two underlying finite sets, when `l₁` has no
duplicates. -/
theorem countP_contains_eq_card_inter (l₁ l₂ : List String) (h : l₁.Nodup) :
    l₁.countP (fun x => l₂.contains x) = (l₁.toFinset ∩ l₂.toFinset).card := by
  rw [List.countP_eq_length_filter]
  rw [← List.toFinset_card_of_nodup (h.filter _), List.toFinset_filter]
  congr 1
  ext a
  simp

/-- Claim C3, amended: For every candidate with non-empty cooccurs and
every non-empty observed selector set (both duplicate-free) whose
parameter names are non-placeholder, the score equals
`10*|cooccurs ∩ observed|/|observed| + |cooccurs ∩ observed|/|cooccurs| + 100`
as an exact rational; in particular `cooccurs = {s1,s2,s3}`,
`observed = {s1,s2,s4}` yields exactly `10*(2/3) + 2/3 + 100 = 322/3
= 107.333...` (the claim's stated total `106.666...` miscomputes this
sum). -/
theorem C3_score_formula (f : Sig) (observed : List String)
    (hco : f.cooccurs ≠ []) (hob : observed ≠ [])
    (hnd1 : f.cooccurs.Nodup) (hnd2 : observed.Nodup)
    (hpar : strContains "param" (pyStrParams f.params) = false) :
    match_score f observed = some
      (10 * ((f.cooccurs.toFinset ∩ observed.toFinset).card : ℚ) / (observed.length : ℚ)
        + ((f.cooccurs.toFinset ∩ observed.toFinset).card : ℚ) / (f.cooccurs.length : ℚ)
        + 100) := by
  have hL1 : ¬ observed.length = 0 := by simpa using hob
  have hL2 : ¬ f.cooccurs.length = 0 := by simpa using hco
  unfold match_score
  rw [if_neg hL1, if_neg hL2]
  rw [countP_contains_eq_card_inter observed f.cooccurs hnd2,
    countP_contains_eq_card_inter f.cooccurs observed hnd1,
    Finset.inter_comm observed.toFinset f.cooccurs.toFinset]
  simp [score_c, hpar]

/-- Claim C3, counterexample: At the claim's own example
(`cooccurs = {s1,s2,s3}`, `observed = {s1,s2,s4}`, non-placeholder
names) the code's score is `322/3 = 107.333...`, not the
`106.666... = 320/3` the claim asserts. -/
theorem C3_counterexample :
    match_score
        ⟨"0xbbbb0001", "g", "g(address)", [⟨"address", "_from"⟩],
          ["0xbbbb0001", "0xbbbb0002", "0xbbbb0003"]⟩
        ["0xbbbb0001", "0xbbbb0002", "0xbbbb0004"] = some (322 / 3 : ℚ) ∧
      (322 / 3 : ℚ) ≠ 320 / 3 := by
  constructor
  · with_unfolding_all decide
  · norm_num

/-- Closed instance of `C3_score_formula`: `cooccurs = {s1,s2,s3}`,
`observed = {s1,s2,s4}` gives exactly `10*(2/3) + 2/3 + 100 = 322/3`. -/
theorem C3_witness :
    match_score
        ⟨"0xaaaa0001", "f", "f(address)", [⟨"address", "_to"⟩],
          ["0xaaaa0001", "0xaaaa0002", "0xaaaa0003"]⟩
        ["0xaaaa0001", "0xaaaa0002", "0xaaaa0004"] = some (322 / 3 : ℚ) := by
  have h := C3_score_formula
    ⟨"0xaaaa0001", "f", "f(address)", [⟨"address", "_to"⟩],
      ["0xaaaa0001", "0xaaaa0002", "0xaaaa0003"]⟩
    ["0xaaaa0001", "0xaaaa0002", "0xaaaa0004"]
    (by decide) (by decide) (by decide) (by decide) (by decide)
  rw [h]
  have hc : ((["0xaaaa0001", "0xaaaa0002", "0xaaaa0003"] : List String).toFinset ∩
      (["0xaaaa0001", "0xaaaa0002", "0xaaaa0004"] : List String).toFinset).card = 2 := by
    decide
  rw [show (⟨"0xaaaa0001", "f", "f(address)", [⟨"address", "_to"⟩],
      ["0xaaaa0001", "0xaaaa0002", "0xaaaa0003"]⟩ : Sig).cooccurs
    = ["0xaaaa0001", "0xaaaa0002", "0xaaaa0003"] from rfl, hc]
  simp only [List.length_cons, List.length_nil, Option.some.injEq]
  norm_num

/-- Claim C5, counterexample: The claim says a candidate with empty
cooccurs still gets a defined score with the `score_b` term treated as
0; in the code the division `score_b / len(func["cooccurs"])` raises
`ZeroDivisionError` (modelled: `match_score` returns `none`). -/
theorem C5_counterexample :
    match_score ⟨"0x11111111", "f", "f(address)", [⟨"address", "_to"⟩], []⟩
      ["0x11111111"] = none := rfl

/-- Claim C5, amended: For every candidate whose cooccurs list is empty
and every non-empty observed selector set, `match_score` raises a
`ZeroDivisionError` (returns `none`) instead of treating `score_b` as
0. -/
theorem C5_empty_cooccurs_raises (f : Sig) (hashes : List String)
    (hco : f.cooccurs = []) (_hh : hashes ≠ []) :
    match_score f hashes = none := by
  unfold match_score
  rw [hco]
  simp

/-- Closed instance of `C5_empty_cooccurs_raises`. -/
theorem C5_witness :
    match_score ⟨"0x22222222", "g", "g(uint256)", [⟨"uint256", "_v"⟩], []⟩
      ["0xaaaaaaab"] = none :=
  C5_empty_cooccurs_raises _ _ rfl (by decide)

/-- A member of a list embeds as a contiguous segment of the Python
join of the list. -/
theorem mem_pyJoin_infix (sep : String) (l : List String) (x : String) (h : x ∈ l) :
    x.data <:+: (pyJoin sep l).data := by
  induction l with
  | nil => cases h
  | cons a t ih =>
    cases t with
    | nil =>
      have hx : x = a := by simpa using h
      subst hx
      exact List.infix_rfl
    | cons b t2 =>
      rcases List.mem_cons.mp h with hx | hmem
      · subst hx
        refine ⟨[], (sep ++ pyJoin sep (b :: t2)).data, ?_⟩
        simp [pyJoin, String.data_append, List.append_assoc]
      · have hlift : (pyJoin sep (b :: t2)).data <:+: (pyJoin sep (a :: b :: t2)).data := by
          refine ⟨(a ++ sep).data, [], ?_⟩
          simp [pyJoin, String.data_append, List.append_assoc]
        exact (ih hmem).trans hlift

/-- Claim C4, counterexample: A candidate whose single parameter is named
`"param1"` has no parameter literally named `"param"`, yet its
`score_c` is 0, not the 100 the claim requires. -/
theorem C4_counterexample :
    score_c [⟨"uint256", "param1"⟩] = 0 ∧
    ¬ ∃ p ∈ [(⟨"uint256", "param1"⟩ : Param)], p.name = "param" := by
  constructor
  · with_unfolding_all decide
  · decide

/-- Claim C4, amended: `score_c` is 100 iff `"param"` does not occur as a
substring of the Python string rendering of the whole params list
(`"param" in str(func["params"])`); in particular a parameter
literally named `"param"` forces `score_c = 0`, but so do names like
`"param1"` or `"_params"` or types containing `"param"`. -/
theorem C4_score_c_substring (ps : List Param) :
    (score_c ps = 100 ↔ ¬ ("param".data <:+: (pyStrParams ps).data)) ∧
    ((∃ p ∈ ps, p.name = "param") → score_c ps = 0) := by
  constructor
  · by_cases h : ("param".data <:+: (pyStrParams ps).data)
    · have hb : strContains "param" (pyStrParams ps) = true := decide_eq_true h
      simp only [score_c, hb, if_true]
      exact iff_of_false (by norm_num) (not_not_intro h)
    · have hb : strContains "param" (pyStrParams ps) = false := decide_eq_false h
      simp only [score_c, hb, if_false]
      exact iff_of_true rfl h
  · rintro ⟨p, hp, hname⟩
    have h1 : "param".data <:+: (pyStrParam p).data := by
      refine ⟨("\x7b" ++ pyQuote "type" ++ ": " ++ pyQuote p.type ++ ", " ++
        pyQuote "name" ++ ": " ++ "\x27").data, ("\x27" ++ "\x7d").data, ?_⟩
      simp [pyStrParam, pyQuote, hname, String.data_append, List.append_assoc]
    have h2 : (pyStrParam p).data <:+: (pyJoin ", " (ps.map pyStrParam)).data := by
      have hmem : pyStrParam p ∈ ps.map pyStrParam := List.mem_map_of_mem _ hp
      exact mem_pyJoin_infix _ _ _ hmem
    have h3 : (pyJoin ", " (ps.map pyStrParam)).data <:+: (pyStrParams ps).data := by
      refine ⟨"[".data, "]".data, ?_⟩
      simp [pyStrParams, pyStrList, String.data_append, List.append_assoc]
    have hinf : "param".data <:+: (pyStrParams ps).data := (h1.trans h2).trans h3
    have hb : strContains "param" (pyStrParams ps) = true := decide_eq_true hinf
    simp [score_c, hb]

/-- Closed instance of `C4_score_c_substring`: a parameter literally
named `"param"` zeroes `score_c`. -/
theorem C4_witness :
    score_c [⟨"uint256", "param"⟩] = 0 :=
  (C4_score_c_substring _).2 ⟨⟨"uint256", "param"⟩, by simp, rfl⟩

/-- Claim C1: The claim (and §4.2/§4.3 of the spec, in line with the
variable's own name) says the candidate with the strictly greatest
score is adopted, first-in-store-order on ties, with the placeholder
surviving only when the best score is nonpositive.  In the code
`best_score = 0` is never updated inside the loop, so every candidate
scoring `> 0` overwrites `res` and the *last* positive-scoring
candidate wins: here the first candidate scores 111, the second only
100, yet the second's name is adopted. -/
theorem C1_last_positive_candidate_wins :
    match_score c1_sigA ["0xaaaaaaaa"] = some 111 ∧
    match_score c1_sigB ["0xaaaaaaaa"] = some 100 ∧
    make_abi c1_fetch [("0xaaaaaaaa", (0 : ℕ))] =
      some [("0xaaaaaaaa",
        ⟨none, some "badname", "badname(uint256)", some [⟨"uint256", "_b"⟩], 0⟩)] := by
  refine ⟨?_, ?_, ?_⟩ <;> with_unfolding_all decide

/-- Claim C9: Before any Signature Store lookup the working copy is
probed and, when invalid, deleted and re-materialized; because
`supplements_path` always resolves to the decompressed path (its
`is_file` is never called), the working copy and the "decompressed
intermediate" are one file, the copy branch of `check_supplements` is
unreachable, and every re-materialization reads the compressed
original first (and only). -/
theorem C9_selfheal_from_compressed (fs : FileState) :
    (fs.data_db = some true → check_supplements fs = .ok (fs, none)) ∧
    (∀ v, fs.data_db = some false → fs.data_xz = some v →
      check_supplements fs = .ok ({ fs with data_db := some v }, some .decompress_xz)) ∧
    (∀ fs' src, check_supplements fs = .ok (fs', src) → src ≠ some .copy_decompressed) ∧
    (∀ (db : String → List Row) (h : String) (fs₂ : FileState) (sigs : List Sig),
      fetch_sigs db fs h = .ok (fs₂, sigs) → ∃ src, check_supplements fs = .ok (fs₂, src)) := by
  obtain ⟨c, d, x⟩ := fs
  refine ⟨?_, ?_, ?_, ?_⟩
  · intro hd
    simp only at hd
    subst hd
    rfl
  · intro v hd hx
    simp only at hd hx
    subst hd hx
    rfl
  · intro fs' src heq
    rcases d with _ | b
    · rcases x with _ | v
      · simp [check_supplements, supplements_path, read_path, write_path] at heq
      · simp [check_supplements, supplements_path, read_path, write_path] at heq
        rcases heq with ⟨h1, h2⟩
        subst h2
        simp
    · rcases b with _ | _
      · rcases x with _ | v
        · simp [check_supplements, supplements_path, read_path, write_path] at heq
        · simp [check_supplements, supplements_path, read_path, write_path] at heq
          rcases heq with ⟨h1, h2⟩
          subst h2
          simp
      · simp [check_supplements, supplements_path, read_path, write_path] at heq
        rcases heq with ⟨h1, h2⟩
        subst h2
        simp
  · intro db h fs₂ sigs heq
    cases hcheck : check_supplements ⟨c, d, x⟩ with
    | error e =>
      rw [fetch_sigs, hcheck] at heq
      cases heq
    | ok pr =>
      obtain ⟨fs2', src'⟩ := pr
      rw [fetch_sigs, hcheck] at heq
      cases heq
      exact ⟨src', rfl⟩

/-- Closed instance of `C9_selfheal_from_compressed`: an invalid
working copy is deleted and rebuilt from the compressed original. -/
theorem C9_witness :
    check_supplements ⟨none, some false, some true⟩ =
      .ok (⟨none, some true, some true⟩, some .decompress_xz) :=
  (C9_selfheal_from_compressed ⟨none, some false, some true⟩).2.1 true rfl rfl

/-- Lemma: `match_score` only depends on the observed selector list up to
permutation. -/
theorem match_score_congr (f : Sig) {hs₁ hs₂ : List String} (h : hs₁.Perm hs₂) :
    match_score f hs₁ = match_score f hs₂ := by
  unfold match_score
  rw [h.length_eq, h.countP_eq]
  have hc : (fun a => hs₁.contains a) = (fun a => hs₂.contains a) :=
    funext fun a => by simp [h.mem_iff]
  rw [hc]

/-- Lemma: `choose_res` only depends on the observed selector list up to
permutation. -/
theorem choose_res_congr {hs₁ hs₂ : List String} (h : hs₁.Perm hs₂)
    (sigs : List Sig) (res0 : ResData) :
    choose_res hs₁ sigs res0 = choose_res hs₂ sigs res0 := by
  unfold choose_res
  induction sigs generalizing res0 with
  | nil => rfl
  | cons f rest ih =>
    simp only [List.foldlM_cons, match_score_congr f h]
    cases match_score f hs₂ with
    | none => rfl
    | some s => exact ih _

/-- Lemma: `abi_entry` only depends on the observed selector list up to
permutation. -/
theorem abi_entry_congr (fetch : String → List Sig) {hs₁ hs₂ : List String}
    (h : hs₁.Perm hs₂) (s : String) :
    abi_entry fetch hs₁ s = abi_entry fetch hs₂ s := by
  unfold abi_entry
  simp only [choose_res_congr h]

/-- Lemma: `make_abi_entries` only depends on the observed selector list up
to permutation. -/
theorem make_abi_entries_congr {α : Type} (fetch : String → List Sig)
    {hs₁ hs₂ : List String} (h : hs₁.Perm hs₂) (l : List (String × α)) :
    make_abi_entries fetch hs₁ l = make_abi_entries fetch hs₂ l := by
  induction l with
  | nil => rfl
  | cons p rest ih =>
    obtain ⟨s, t⟩ := p
    simp only [make_abi_entries, abi_entry_congr fetch h, ih]

/-- Lemma: `OListPerm` is transitive. -/
theorem OListPerm.trans' {β : Type} {a b c : Option (List β)}
    (h₁ : OListPerm a b) (h₂ : OListPerm b c) : OListPerm a c := by
  cases a <;> cases b <;> cases c <;> simp [OListPerm] at * <;> exact h₁.trans h₂

/-- Permuting the selector→target association list permutes the built
entry list (and preserves failure). -/
theorem make_abi_entries_perm {α : Type} (fetch : String → List Sig)
    (hashes : List String) {l₁ l₂ : List (String × α)} (h : l₁.Perm l₂) :
    OListPerm (make_abi_entries fetch hashes l₁) (make_abi_entries fetch hashes l₂) := by
  induction h with
  | nil => simp [make_abi_entries, OListPerm]
  | @cons p l₁' l₂' h' ih =>
    obtain ⟨s, t⟩ := p
    simp only [make_abi_entries]
    cases habi : abi_entry fetch hashes s with
    | none => simp [OListPerm]
    | some e =>
      cases h1 : make_abi_entries fetch hashes l₁' with
      | none =>
        rw [h1] at ih
        cases h2 : make_abi_entries fetch hashes l₂' with
        | none => simp [OListPerm]
        | some es₂ =>
          rw [h2] at ih
          exact absurd ih (by simp [OListPerm])
      | some es₁ =>
        rw [h1] at ih
        cases h2 : make_abi_entries fetch hashes l₂' with
        | none =>
          rw [h2] at ih
          exact absurd ih (by simp [OListPerm])
        | some es₂ =>
          rw [h2] at ih
          have hp : es₁.Perm es₂ := ih
          show ((s, ⟨e.fname, e.name, e.folded_name, e.params, t⟩) :: es₁).Perm
            ((s, ⟨e.fname, e.name, e.folded_name, e.params, t⟩) :: es₂)
          exact hp.cons _
  | swap p q l =>
    obtain ⟨s₁, t₁⟩ := p
    obtain ⟨s₂, t₂⟩ := q
    simp only [make_abi_entries]
    cases habi1 : abi_entry fetch hashes s₁ <;> cases habi2 : abi_entry fetch hashes s₂ <;>
      cases hrest : make_abi_entries fetch hashes l <;>
        simp [OListPerm, List.Perm.swap]
  | trans h₁ h₂ ih₁ ih₂ => exact ih₁.trans' ih₂

/-- Sorting the selector list is invariant under permutation of the
input (the comparator is the total order on strings). -/
theorem mergeSort_le_perm_eq {k₁ k₂ : List String} (h : k₁.Perm k₂) :
    k₁.mergeSort (fun a b => decide (a ≤ b)) = k₂.mergeSort (fun a b => decide (a ≤ b)) := by
  haveI : IsAntisymm String (fun a b => decide (a ≤ b) = true) :=
    ⟨fun a b ha hb => le_antisymm (of_decide_eq_true ha) (of_decide_eq_true hb)⟩
  have htrans : ∀ a b c : String, decide (a ≤ b) = true → decide (b ≤ c) = true →
      decide (a ≤ c) = true := fun a b c hab hbc =>
    decide_eq_true (le_trans (of_decide_eq_true hab) (of_decide_eq_true hbc))
  have htotal : ∀ a b : String, (decide (a ≤ b) || decide (b ≤ a)) = true := fun a b => by
    rcases le_total a b with h' | h'
    · rw [decide_eq_true h', Bool.true_or]
    · rw [decide_eq_true h', Bool.or_true]
  exact List.eq_of_perm_of_sorted
    ((List.mergeSort_perm k₁ _).trans (h.trans (List.mergeSort_perm k₂ _).symm))
    (List.sorted_mergeSort htrans htotal k₁)
    (List.sorted_mergeSort htrans htotal k₂)

/-- The serialized sorted selector list is invariant under permutation
of the selector→target association list. -/
theorem cache_key_input_perm {α : Type} {l₁ l₂ : List (String × α)} (h : l₁.Perm l₂) :
    cache_key_input l₁ = cache_key_input l₂ := by
  unfold cache_key_input
  rw [mergeSort_le_perm_eq (h.map Prod.fst)]

/-- Claim C8: Two runs of `make_abi` over the same selector set with the
same store produce the same cache key and the same ABI-map content,
and the cache key does not depend on the order in which the
selector→target mapping enumerates its keys: it is a content hash
(an arbitrary digest function applied to the serialization) of the
sorted selector list. -/
theorem C8_build_deterministic_order_independent {α : Type}
    (fetch : String → List Sig) (sha256_hexdigest : String → String)
    (l₁ l₂ : List (String × α)) (h : l₁.Perm l₂) :
    cache_key sha256_hexdigest l₁ = cache_key sha256_hexdigest l₂ ∧
    OListPerm (make_abi fetch l₁) (make_abi fetch l₂) := by
  constructor
  · unfold cache_key
    rw [cache_key_input_perm h]
  · unfold make_abi
    have h1 : make_abi_entries fetch (l₁.map Prod.fst) l₁ =
        make_abi_entries fetch (l₂.map Prod.fst) l₁ :=
      make_abi_entries_congr fetch (h.map Prod.fst) l₁
    rw [h1]
    exact make_abi_entries_perm fetch _ h

/-- Closed instance of `C8_build_deterministic_order_independent`: the
two enumeration orders of `{a: 0, b: 1}` give the same cache key and
permutation-equal ABI content. -/
theorem C8_witness :
    cache_key id [("0xaaaaaaaa", (0 : ℕ)), ("0xbbbbbbbb", 1)] =
      cache_key id [("0xbbbbbbbb", 1), ("0xaaaaaaaa", 0)] ∧
    OListPerm (make_abi (fun _ => []) [("0xaaaaaaaa", (0 : ℕ)), ("0xbbbbbbbb", 1)])
      (make_abi (fun _ => []) [("0xbbbbbbbb", 1), ("0xaaaaaaaa", 0)]) :=
  C8_build_deterministic_order_independent (fun _ => []) id _ _
    (List.Perm.swap ("0xbbbbbbbb", 1) ("0xaaaaaaaa", 0) [])

end Panoramix
